import Mathlib

/-
  Verification of the scheduling-session core of kube-batch
  (pkg/scheduler/framework/session.go).

  The session state is embedded shallowly: Go pointer-shared objects (tasks,
  jobs, nodes) live in per-kind stores keyed by their identity (task UID, job
  UID, node name), and every mutation through a pointer becomes a keyed update
  of the store.  Cache calls (AllocateVolumes, BindVolumes, Bind, Evict) are
  external collaborators and are modelled as an oracle of pure functions
  returning an optional error, per the interface table of the spec.
  Go map iteration order is unspecified; iterations over buckets are
  serialised in store order, and no theorem below depends on that order.
-/

namespace KubeBatch

/-- Task lifecycle states (pkg/scheduler/api TaskStatus, including the
AllocatedOverBackfill state of this fork). -/
inductive TaskStatus where
  | Pending
  | Pipelined
  | Allocated
  | AllocatedOverBackfill
  | Binding
  | Running
  | Releasing
  | Succeeded
  | Failed
  deriving DecidableEq, Repr

/-- Modelled from the spec: api.AllocatedStatus is not under src.  Section 3
calls it "a derived predicate over this set used to count resource already
committed tasks"; the committed states are the placed ones of the lifecycle
(firm allocation, backfill allocation, binding, running). -/
def AllocatedStatus : TaskStatus → Bool
  | .Allocated => true
  | .AllocatedOverBackfill => true
  | .Binding => true
  | .Running => true
  | _ => false

/-- A PodGroup condition (v1alpha1.PodGroupCondition).  The wall-clock
LastTransitionTime field is not modelled; ConditionTrue is `true`. -/
structure PodGroupCondition where
  condType : String
  status : Bool
  transitionID : String
  reason : String
  message : String
  deriving DecidableEq, Repr

/-- v1alpha1.PodGroupUnschedulableType. -/
def podGroupUnschedulableType : String := "Unschedulable"

/-- Job phases (v1alpha1.PodGroupPhase values used by session.go). -/
inductive PodGroupPhase where
  | Pending
  | Running
  | Unknown
  deriving DecidableEq, Repr

/-- v1alpha1.PodGroupStatus: phase, condition list and the per-status task
counters.  The Go counters are int32 casts of list lengths; they are modelled
as Nat (the cast cannot overflow for any cluster this code can represent). -/
structure PodGroupStatus where
  phase : PodGroupPhase
  conditions : List PodGroupCondition
  running : Nat
  failed : Nat
  succeeded : Nat
  deriving DecidableEq, Repr

/-- v1alpha1.PodGroupSpec: the gang minimum member count (int32 in Go). -/
structure PodGroupSpec where
  minMember : Int
  deriving DecidableEq, Repr

structure PodGroup where
  spec : PodGroupSpec
  status : PodGroupStatus
  deriving DecidableEq, Repr

/-- api.JobInfo, restricted to the fields session.go reads: the UID and the
PodGroup (nil for PDB-backed legacy jobs). -/
structure JobInfo where
  uid : Nat
  podGroup : Option PodGroup
  deriving DecidableEq, Repr

/-- api.TaskInfo: identity, owning job, status, assigned node name and the
resource request.  Resources are one-dimensional exact quantities (Int). -/
structure TaskInfo where
  uid : Nat
  job : Nat
  status : TaskStatus
  nodeName : String
  resreq : Int
  deriving DecidableEq, Repr

/-- api.NodeInfo: name, the idle/used/releasing capacity partition and the
list of task UIDs currently attached to the node. -/
structure NodeInfo where
  name : String
  idle : Int
  used : Int
  releasing : Int
  tasks : List Nat
  deriving DecidableEq, Repr

structure QueueInfo where
  uid : Nat
  deriving DecidableEq, Repr

/-- api.ValidateResult, returned by extended job-validity policies. -/
structure ValidateResult where
  pass : Bool
  reason : String
  message : String
  deriving DecidableEq, Repr

/-- A record that one registered event handler callback was invoked for the
given task UID (the callbacks themselves are external plugin code). -/
inductive Event where
  | allocate (tid : Nat)
  | deallocate (tid : Nat)
  deriving DecidableEq, Repr

/-- framework.EventHandler: a pair of optional callbacks.  Only the presence
of each callback is modelled; invocation is recorded in the event log. -/
structure EventHandler where
  hasAllocateFn : Bool
  hasDeallocateFn : Bool

/-- The mutable working set of one Session.  `allJobs` is the object store of
every job object of the cycle; `jobsList` holds the UIDs in ssn.Jobs (the
schedulable list) and `jobIndexed` the keys present in ssn.JobIndex, which in
the Go code is populated only after the validity loop of openSession. -/
structure SessionState where
  uid : String
  allJobs : List JobInfo
  jobsList : List Nat
  jobIndexed : List Nat
  tasks : List TaskInfo
  nodes : List NodeInfo
  queues : List QueueInfo
  topDogReadyJobs : List Nat
  events : List Event
  deriving DecidableEq, Repr

/-- An extended validity function (api.ValidateExFn): per the registry
contract it yields a failing result or no opinion. -/
abbrev JobValidFn := JobInfo → Option ValidateResult

/-- A readiness validator (api.ValidateFn).  In Go it receives the job
pointer, which can be nil when the job was not found in the index, and it can
read the task state reachable from that pointer, so it is modelled over the
optional job and the task store. -/
abbrev JobReadyFn := Option JobInfo → List TaskInfo → Bool

/-- The external Cluster State Cache, as the oracle of fallible calls listed
in the interface table of the spec.  Tasks are identified by UID. -/
structure Cache where
  allocateVolumes : Nat → String → Option String
  bindVolumes : Nat → Option String
  bind : Nat → String → Option String
  evict : Nat → String → Option String

/-- The per-cycle registry and collaborators that Allocate/Evict consult:
the cache, the registered event handlers and the job readiness validators. -/
structure SessionConfig where
  cache : Cache
  eventHandlers : List EventHandler
  jobReadyFns : List JobReadyFn

/-- ssn.JobIndex lookup: a job is found iff its UID was registered in the
index, and the object returned is the store object with that UID. -/
def SessionState.lookupJob (st : SessionState) (uid : Nat) : Option JobInfo :=
  if st.jobIndexed.contains uid then st.allJobs.find? (fun j => j.uid == uid) else none

/-- ssn.NodeIndex lookup by node name. -/
def SessionState.lookupNode (st : SessionState) (name : String) : Option NodeInfo :=
  st.nodes.find? (fun n => n.name == name)

/-- Dereference a task pointer: the store object with the given UID. -/
def SessionState.getTask (st : SessionState) (tid : Nat) : Option TaskInfo :=
  st.tasks.find? (fun t => t.uid == tid)

/-- Mutation through a task pointer: rewrite the store object with that UID. -/
def updateTaskFields (ts : List TaskInfo) (tid : Nat) (f : TaskInfo → TaskInfo) :
    List TaskInfo :=
  ts.map (fun t => if t.uid == tid then f t else t)

/-- Mutation through a node pointer: rewrite the store object with that name. -/
def updateNodeFields (ns : List NodeInfo) (name : String) (f : NodeInfo → NodeInfo) :
    List NodeInfo :=
  ns.map (fun n => if n.name == name then f n else n)

/-- Mutation through a job pointer: rewrite the store object with that UID. -/
def updateJobFields (js : List JobInfo) (uid : Nat) (f : JobInfo → JobInfo) :
    List JobInfo :=
  js.map (fun j => if j.uid == uid then f j else j)

/-- Modelled from the spec: Session.JobValid (session_plugins.go) is not under
src.  Per section 4.2 the extended validity predicates are combined as a
logical AND, an unregistered kind defaults to pass, and the failing policy
result (reason and message) is surfaced; a pass yields no result. -/
def JobValid : List JobValidFn → JobInfo → Option ValidateResult
  | [], _ => none
  | f :: fs, job =>
    match f job with
    | some vr => if vr.pass then JobValid fs job else some vr
    | none => JobValid fs job

/-- Modelled from the spec: Session.JobReady (session_plugins.go) is not under
src.  Per section 4.2 readiness validators are combined as a logical AND and
an empty registry defaults to pass. -/
def JobReady (fns : List JobReadyFn) (job : Option JobInfo) (tasks : List TaskInfo) :
    Bool :=
  fns.all (fun f => f job tasks)

/-- The condition-slot update of Session.UpdateJobCondition: the first
condition with the same type is overwritten, otherwise the condition is
appended. -/
def updateConditions : List PodGroupCondition → PodGroupCondition → List PodGroupCondition
  | [], cond => [cond]
  | c :: cs, cond =>
    if c.condType == cond.condType then cond :: cs else c :: updateConditions cs cond

/-- Apply a condition update to the PodGroup of a job.  The Go code would
nil-dereference a job without a PodGroup here; no session code path reaches
that case and it is modelled as a no-op. -/
def JobInfo.withCondition (j : JobInfo) (cond : PodGroupCondition) : JobInfo :=
  { j with podGroup := j.podGroup.map (fun pg =>
      { pg with status := { pg.status with
          conditions := updateConditions pg.status.conditions cond } }) }

/-- Session.UpdateJobCondition: fails unless the job is found in ssn.JobIndex;
on success rewrites the condition list of the indexed job object. -/
def UpdateJobCondition (st : SessionState) (jobInfo : JobInfo)
    (cond : PodGroupCondition) : Except String SessionState :=
  match st.lookupJob jobInfo.uid with
  | none => Except.error "failed to find job"
  | some _ => Except.ok { st with
      allJobs := updateJobFields st.allJobs jobInfo.uid (fun j => j.withCondition cond) }

/-- The Unschedulable condition openSession builds for a job failing validity:
status ConditionTrue, tagged with the session UID, carrying the policy reason
and message. -/
def unschedulableCondition (ssnUID : String) (vjr : ValidateResult) : PodGroupCondition :=
  { condType := podGroupUnschedulableType
    status := true
    transitionID := ssnUID
    reason := vjr.reason
    message := vjr.message }

/-- The snapshot handed over by Cache.Snapshot at session open.  Tasks of all
jobs are carried in one store (in Go they hang off the JobInfo objects). -/
structure Snapshot where
  jobs : List JobInfo
  nodes : List NodeInfo
  queues : List QueueInfo
  tasks : List TaskInfo
  deriving DecidableEq, Repr

/-- The job-validity loop of openSession (session.go lines 87-108): a job with
a failing validity result is annotated through UpdateJobCondition (against the
session state as it is at that point of the loop) and skipped; a job with a
non-failing result object is skipped silently; a job with no result is
appended to ssn.Jobs. -/
def openSessionLoop (fns : List JobValidFn) : SessionState → List JobInfo → SessionState
  | st, [] => st
  | st, job :: rest =>
    match JobValid fns job with
    | some vjr =>
      let st' :=
        if vjr.pass then st
        else
          match UpdateJobCondition st job (unschedulableCondition st.uid vjr) with
          | Except.ok s => s
          | Except.error _ => st
      openSessionLoop fns st' rest
    | none => openSessionLoop fns { st with jobsList := st.jobsList ++ [job.uid] } rest

/-- openSession (session.go lines 65-132): starts from empty indices, runs the
validity loop over the snapshot jobs, then registers every accepted job UID in
ssn.JobIndex and adopts the snapshot nodes and queues.  The validity policies
in effect during the loop are passed in explicitly (they are registered by the
plugin framework outside src). -/
def openSession (ssnUID : String) (fns : List JobValidFn) (snap : Snapshot) :
    SessionState :=
  let st0 : SessionState :=
    { uid := ssnUID
      allJobs := snap.jobs
      jobsList := []
      jobIndexed := []
      tasks := snap.tasks
      nodes := []
      queues := []
      topDogReadyJobs := []
      events := [] }
  let st1 := openSessionLoop fns st0 snap.jobs
  { st1 with jobIndexed := st1.jobsList, nodes := snap.nodes, queues := snap.queues }

/-- The per-status bucket of the task-status index of a job, derived from the
task store (job_info.go keeps TaskStatusIndex in sync with exactly this
relation). -/
def taskStatusIndex (tasks : List TaskInfo) (juid : Nat) (s : TaskStatus) :
    List TaskInfo :=
  tasks.filter (fun t => t.job == juid && t.status == s)

/-- The allocated-task count of jobStatus: the summed sizes of the buckets
whose status satisfies AllocatedStatus. -/
def countAllocated (tasks : List TaskInfo) (juid : Nat) : Nat :=
  (tasks.filter (fun t => t.job == juid && AllocatedStatus t.status)).length

/-- Whether a condition list carries an Unschedulable condition with status
ConditionTrue whose TransitionID is the given session UID. -/
def hasSessionUnschedulableCondition (ssnUID : String)
    (conds : List PodGroupCondition) : Bool :=
  conds.any (fun c =>
    c.condType == podGroupUnschedulableType && c.status == true && c.transitionID == ssnUID)

/-- jobStatus (session.go lines 165-207), the status reconciler: phase is
Unknown when the job has running tasks and was flagged unschedulable by this
session, else Running when the allocated count strictly exceeds MinMember,
else Pending; the three counters are recomputed from the buckets. -/
def jobStatus (ssnUID : String) (tasks : List TaskInfo) (juid : Nat) (pg : PodGroup) :
    PodGroupStatus :=
  let status := pg.status
  let unschedulable := hasSessionUnschedulableCondition ssnUID status.conditions
  let status1 :=
    if (taskStatusIndex tasks juid .Running).length ≠ 0 ∧ unschedulable = true then
      { status with phase := PodGroupPhase.Unknown }
    else
      if (countAllocated tasks juid : Int) > pg.spec.minMember then
        { status with phase := PodGroupPhase.Running }
      else
        { status with phase := PodGroupPhase.Pending }
  { status1 with
    running := (taskStatusIndex tasks juid .Running).length
    failed := (taskStatusIndex tasks juid .Failed).length
    succeeded := (taskStatusIndex tasks juid .Succeeded).length }

/-- closeSession (session.go lines 134-161): every job of ssn.Jobs that has a
PodGroup gets its status replaced by the reconciled status (persistence and
the final index teardown are cache-side effects outside the state). -/
def closeSession (st : SessionState) : SessionState :=
  { st with allJobs := st.allJobs.map (fun j =>
      if st.jobsList.contains j.uid then
        match j.podGroup with
        | none => j
        | some pg => { j with podGroup := some { pg with status := jobStatus st.uid st.tasks j.uid pg } }
      else j) }

/-- Fire the AllocateFunc of every registered handler that has one (recorded
as appended events, in registration order). -/
def fireAllocateEvents (cfg : SessionConfig) (st : SessionState) (tid : Nat) :
    SessionState :=
  { st with events := st.events ++
      (cfg.eventHandlers.filter (fun h => h.hasAllocateFn)).map (fun _ => Event.allocate tid) }

/-- Fire the DeallocateFunc of every registered handler that has one. -/
def fireDeallocateEvents (cfg : SessionConfig) (st : SessionState) (tid : Nat) :
    SessionState :=
  { st with events := st.events ++
      (cfg.eventHandlers.filter (fun h => h.hasDeallocateFn)).map (fun _ => Event.deallocate tid) }

/-- Modelled from the spec: NodeInfo.AddTask (pkg/scheduler/api/node_info.go)
is not under src.  Section 4.3 says a placement attaches the task to the task
list and capacity accounting of the node, and the section 3 invariant
(idle + used + releasing = total) forces the request to move from idle to
used; a task already on the node is an error and leaves the node unchanged. -/
def NodeInfo.addTask (n : NodeInfo) (tid : Nat) (r : Int) : NodeInfo :=
  if n.tasks.contains tid then n
  else { n with tasks := n.tasks ++ [tid], idle := n.idle - r, used := n.used + r }

/-- Modelled from the spec: NodeInfo.UpdateTask (pkg/scheduler/api/node_info.go)
is not under src.  Section 4.4 says eviction "updates the bookkeeping of the
node by moving the resources of the task from used into releasing" with idle
untouched; a task not on the node is an error and leaves the node unchanged. -/
def NodeInfo.updateTaskReleasing (n : NodeInfo) (tid : Nat) (r : Int) : NodeInfo :=
  if n.tasks.contains tid then
    { n with used := n.used - r, releasing := n.releasing + r }
  else n

/-- The outcome of a session primitive as the Go caller observes it: a nil
return, a returned error, or a runtime nil-pointer dereference (Go panic).
session.go dereferences the job pointer looked up from ssn.JobIndex at lines
300 and 308 without a nil check, so a missing job whose readiness defaults to
pass crashes the call instead of returning. -/
inductive AllocResult where
  | ok
  | err (e : String)
  | panicked
  deriving DecidableEq, Repr

/-- Session.dispatch (session.go lines 314-335): BindVolumes, then Bind to the
node name currently stored on the task; either failure returns that error with
no mutation; on success the task status becomes Binding if the owning job is
found in the index (else the failure is only logged). -/
def dispatch (cfg : SessionConfig) (st : SessionState) (tid : Nat) :
    Option String × SessionState :=
  match cfg.cache.bindVolumes tid with
  | some e => (some e, st)
  | none =>
    let nodeName := match st.getTask tid with
      | some t => t.nodeName
      | none => ""
    match cfg.cache.bind tid nodeName with
    | some e => (some e, st)
    | none =>
      let tj := match st.getTask tid with
        | some t => t.job
        | none => 0
      if (st.lookupJob tj).isSome then
        (none, { st with tasks := (updateTaskFields st.tasks tid
            (fun t => { t with status := TaskStatus.Binding })) })
      else
        (none, st)

/-- The readiness-triggered dispatch pass of Allocate: each task of the batch
is attempted and a failure is only logged (the error of dispatch is dropped). -/
def dispatchAll (cfg : SessionConfig) (st : SessionState) (batch : List Nat) :
    SessionState :=
  batch.foldl (fun s tid => (dispatch cfg s tid).2) st

/-- The Allocated bucket of the task-status index of a job, as the list of
task UIDs (the batch the dispatch loop of Allocate ranges over). -/
def allocatedBucket (st : SessionState) (juid : Nat) : List Nat :=
  (st.tasks.filter (fun t => t.job == juid && t.status == TaskStatus.Allocated)).map
    (fun t => t.uid)

/-- Allocate, step one (session.go lines 258-272): if the owning job is in
the index, set the task status to Allocated, or AllocatedOverBackfill under
backfill (a failure of the status update itself is only logged); a missing
job is only logged. -/
def allocStatus (st : SessionState) (task : TaskInfo) (usingBackfillTaskRes : Bool) :
    SessionState :=
  if (st.lookupJob task.job).isSome then
    { st with tasks := (updateTaskFields st.tasks task.uid
        (fun t => { t with status := (if usingBackfillTaskRes
            then TaskStatus.AllocatedOverBackfill else TaskStatus.Allocated) })) }
  else st

/-- Allocate, step two (session.go line 274): assign the node name on the
task object. -/
def allocNodeName (st : SessionState) (task : TaskInfo) (hostname : String) :
    SessionState :=
  { st with tasks := (updateTaskFields st.tasks task.uid
      (fun t => { t with nodeName := hostname })) }

/-- Allocate, step three (session.go lines 276-286): if the node is in the
index, attach the task to it (a failed attach is only logged inside addTask
modelling); a missing node is only logged. -/
def allocAttach (st : SessionState) (task : TaskInfo) (hostname : String) :
    SessionState :=
  if (st.lookupNode hostname).isSome then
    { st with nodes := (updateNodeFields st.nodes hostname
        (fun n => n.addTask task.uid task.resreq)) }
  else st

/-- The bookkeeping prefix of Allocate (session.go lines 258-296), after
volume reservation succeeded and before the readiness decision: status
update, node-name assignment, node attach, allocate events.  The job and
node indices are untouched here, so the single JobIndex lookup Go performs
up front agrees with the lookups below. -/
def allocatePre (cfg : SessionConfig) (st : SessionState) (task : TaskInfo)
    (hostname : String) (usingBackfillTaskRes : Bool) : SessionState :=
  fireAllocateEvents cfg
    (allocAttach (allocNodeName (allocStatus st task usingBackfillTaskRes) task hostname)
      task hostname) task.uid

/-- Session.Allocate (session.go lines 253-312).  A volume reservation failure
returns that error with nothing mutated.  Otherwise, after the bookkeeping
prefix: if the owning job is indexed and ready and this was not a backfill
placement, every task of its Allocated bucket is dispatched in one pass; if it
is ready under a backfill placement it is recorded in TopDogReadyJobs instead;
a missing job whose readiness check (on the nil job) passes crashes on the nil
dereference. -/
def Allocate (cfg : SessionConfig) (st : SessionState) (task : TaskInfo)
    (hostname : String) (usingBackfillTaskRes : Bool) : AllocResult × SessionState :=
  match cfg.cache.allocateVolumes task.uid hostname with
  | some e => (AllocResult.err e, st)
  | none =>
    let st4 := allocatePre cfg st task hostname usingBackfillTaskRes
    match st4.lookupJob task.job with
    | some job =>
      if JobReady cfg.jobReadyFns (some job) st4.tasks && !usingBackfillTaskRes then
        (AllocResult.ok, dispatchAll cfg st4 (allocatedBucket st4 job.uid))
      else if JobReady cfg.jobReadyFns (some job) st4.tasks then
        (AllocResult.ok, { st4 with topDogReadyJobs :=
            (if st4.topDogReadyJobs.contains job.uid then st4.topDogReadyJobs
            else st4.topDogReadyJobs ++ [job.uid]) })
      else
        (AllocResult.ok, st4)
    | none =>
      if JobReady cfg.jobReadyFns none st4.tasks then (AllocResult.panicked, st4)
      else (AllocResult.ok, st4)

/-- Session.Evict (session.go lines 337-371).  A cache eviction failure
returns that error with nothing mutated; on success the task status becomes
Releasing if its job is indexed, the node bookkeeping is updated if the node
is indexed, and the deallocate handlers fire. -/
def Evict (cfg : SessionConfig) (st : SessionState) (reclaimee : TaskInfo)
    (reason : String) : AllocResult × SessionState :=
  match cfg.cache.evict reclaimee.uid reason with
  | some e => (AllocResult.err e, st)
  | none =>
    let st1 :=
      if (st.lookupJob reclaimee.job).isSome then
        { st with tasks := (updateTaskFields st.tasks reclaimee.uid
            (fun t => { t with status := TaskStatus.Releasing })) }
      else st
    let st2 :=
      if (st1.lookupNode reclaimee.nodeName).isSome then
        { st1 with nodes := (updateNodeFields st1.nodes reclaimee.nodeName
            (fun n => n.updateTaskReleasing reclaimee.uid reclaimee.resreq)) }
      else st1
    (AllocResult.ok, fireDeallocateEvents cfg st2 reclaimee.uid)

/-- One state-mutating primitive call of a scheduling cycle (dispatch is
internal to Allocate and not separately callable). -/
inductive Step where
  | alloc (task : TaskInfo) (hostname : String) (usingBackfillTaskRes : Bool)
  | evict (task : TaskInfo) (reason : String)

/-- Run one primitive call, keeping only the state (callers of the session
primitives log and drop the returned error). -/
def runStep (cfg : SessionConfig) (st : SessionState) : Step → SessionState
  | .alloc t h b => (Allocate cfg st t h b).2
  | .evict t r => (Evict cfg st t r).2

/-- Run a sequence of primitive calls of one cycle. -/
def runSteps (cfg : SessionConfig) : SessionState → List Step → SessionState
  | st, [] => st
  | st, s :: rest => runSteps cfg (runStep cfg st s) rest

/-- No task of the given job is in status Binding. -/
def NoBindingFor (juid : Nat) (st : SessionState) : Prop :=
  ∀ t ∈ st.tasks, t.job = juid → t.status ≠ TaskStatus.Binding

/-- The task store holds pairwise distinct task UIDs (tasks come from one
snapshot keyed by pod identity). -/
def UidsNodup (st : SessionState) : Prop :=
  (st.tasks.map TaskInfo.uid).Nodup

/-- Every Allocate call of the step that concerns the given job is a backfill
placement. -/
def Step.backfillOnlyFor (juid : Nat) : Step → Prop
  | .alloc t _ b => t.job = juid → b = true
  | .evict _ _ => True

/-- The number of conditions of a given type in a condition list. -/
def countType (conds : List PodGroupCondition) (t : String) : Nat :=
  (conds.filter (fun c => c.condType == t)).length

/-- The identity projection of the task store: UID and owning job of every
entry.  No session primitive ever changes it. -/
def uidJob (ts : List TaskInfo) : List (Nat × Nat) :=
  ts.map (fun t => (t.uid, t.job))

/-- A session state with empty working set, as openSession builds before the
snapshot is poured in. -/
def emptySession (u : String) : SessionState :=
  { uid := u
    allJobs := []
    jobsList := []
    jobIndexed := []
    tasks := []
    nodes := []
    queues := []
    topDogReadyJobs := []
    events := [] }

/-- A cache oracle on which every collaborator call succeeds. -/
def okCache : Cache :=
  { allocateVolumes := fun _ _ => none
    bindVolumes := fun _ => none
    bind := fun _ _ => none
    evict := fun _ _ => none }

/-- A validity policy that fails every job, for exercising the open-time
annotation path. -/
def failAllPolicy : List JobValidFn :=
  [fun _ => some { pass := false, reason := "r", message := "m" }]

/-- A fresh PodGroup with the given gang minimum and no conditions. -/
def freshPodGroup (minMember : Int) : PodGroup :=
  { spec := { minMember := minMember }
    status := { phase := PodGroupPhase.Pending, conditions := [], running := 0,
                failed := 0, succeeded := 0 } }

/-- A condition of the given type, ConditionTrue, tagged with the given
transition id. -/
def wCond (t : String) (id : String) : PodGroupCondition :=
  { condType := t, status := true, transitionID := id, reason := "r", message := "m" }

/-- A pending task of the given UID and job with unit resource request. -/
def wTask (uid : Nat) (job : Nat) : TaskInfo :=
  { uid := uid, job := job, status := TaskStatus.Pending, nodeName := "", resreq := 1 }

/-- A concrete PodGroup carrying one stale Unschedulable condition. -/
def c9pg : PodGroup :=
  { spec := { minMember := 1 }
    status := { phase := PodGroupPhase.Pending, conditions := [wCond "Unschedulable" "old"],
                running := 0, failed := 0, succeeded := 0 } }

/-- A job with the c9pg PodGroup, UID 3. -/
def c9job : JobInfo := { uid := 3, podGroup := some c9pg }

/-- A session holding c9job, indexed. -/
def c9st : SessionState :=
  { emptySession "s" with allJobs := [c9job], jobsList := [3], jobIndexed := [3] }

/-- A cache on which volume reservation always fails. -/
def c5cfg : SessionConfig :=
  { cache := { okCache with allocateVolumes := fun _ _ => some "boom" }
    eventHandlers := []
    jobReadyFns := [] }

/-- A running task on node n, UID 1, job 1, request 2. -/
def c7task : TaskInfo :=
  { uid := 1, job := 1, status := TaskStatus.Running, nodeName := "n", resreq := 2 }

/-- A node holding c7task. -/
def c7node : NodeInfo := { name := "n", idle := 3, used := 2, releasing := 0, tasks := [1] }

/-- A session holding job 1 (indexed), c7task and c7node. -/
def c7st : SessionState :=
  { emptySession "s" with
      allJobs := [{ uid := 1, podGroup := some (freshPodGroup 1) }]
      jobsList := [1]
      jobIndexed := [1]
      tasks := [c7task]
      nodes := [c7node] }

/-- A config with an always-succeeding cache and one deallocate handler. -/
def c7cfg : SessionConfig :=
  { cache := okCache
    eventHandlers := [{ hasAllocateFn := false, hasDeallocateFn := true }]
    jobReadyFns := [] }

/-- A spare node with empty task list. -/
def wNode : NodeInfo := { name := "n", idle := 10, used := 0, releasing := 0, tasks := [] }

/-- A session with job 5 (indexed), one pending task 9 of job 5, and wNode. -/
def c3st : SessionState :=
  { emptySession "s" with
      allJobs := [{ uid := 5, podGroup := some (freshPodGroup 1) }]
      jobsList := [5]
      jobIndexed := [5]
      tasks := [wTask 9 5]
      nodes := [wNode] }

/-- A config whose single readiness validator always passes. -/
def c3cfg : SessionConfig :=
  { cache := okCache
    eventHandlers := []
    jobReadyFns := [fun _ _ => true] }

/-- One backfill placement of task 9 on wNode. -/
def c3steps : List Step := [Step.alloc (wTask 9 5) "n" true]

/-- A second task of job 1, already firmly allocated on another node. -/
def c6t2 : TaskInfo :=
  { uid := 2, job := 1, status := TaskStatus.Allocated, nodeName := "n2", resreq := 1 }

/-- A session with job 1 (indexed, gang minimum 0), tasks 1 and 2, and wNode. -/
def c6st : SessionState :=
  { emptySession "s" with
      allJobs := [{ uid := 1, podGroup := some (freshPodGroup 0) }]
      jobsList := [1]
      jobIndexed := [1]
      tasks := [wTask 1 1, c6t2]
      nodes := [wNode] }

/-- A config whose cache fails BindVolumes exactly for task 2 and whose single
readiness validator always passes. -/
def c6cfg : SessionConfig :=
  { cache := { okCache with bindVolumes := fun tid => if tid == 2 then some "bv" else none }
    eventHandlers := []
    jobReadyFns := [fun _ _ => true] }

/-- A config with nothing registered: readiness defaults to pass. -/
def c10cfg : SessionConfig := { cache := okCache, eventHandlers := [], jobReadyFns := [] }

/-- The c6 session with both tasks of job 1 already firmly Allocated. -/
def c6stA : SessionState :=
  { c6st with tasks := [{ wTask 1 1 with status := TaskStatus.Allocated, nodeName := "n" }, c6t2] }

/-- A PDB-style job with no PodGroup, UID 1. -/
def wJob : JobInfo := { uid := 1, podGroup := none }

/-- A one-job snapshot with nothing else. -/
def wSnap : Snapshot := { jobs := [wJob], nodes := [], queues := [], tasks := [] }

/-- A one-job snapshot whose job carries a fresh PodGroup, UID 7. -/
def c2snap : Snapshot :=
  { jobs := [{ uid := 7, podGroup := some (freshPodGroup 1) }]
    nodes := []
    queues := []
    tasks := [] }

section Lemmas

/-- In a store whose keys are pairwise distinct, looking up the key of a
member returns that member. -/
theorem find?_eq_of_key_nodup {α κ : Type} [BEq κ] [LawfulBEq κ] (key : α → κ) :
    ∀ (l : List α) (x : α), (l.map key).Nodup → x ∈ l →
      l.find? (fun y => key y == key x) = some x := by
  intro l
  induction l with
  | nil => intro x _ hx; cases hx
  | cons a l ih =>
    intro x hnd hx
    rw [List.map_cons, List.nodup_cons] at hnd
    rcases List.mem_cons.mp hx with rfl | hx'
    · simp [List.find?_cons]
    · have hne : (key a == key x) = false := by
        rw [beq_eq_false_iff_ne]
        intro hcontra
        exact hnd.1 (hcontra ▸ List.mem_map_of_mem key hx')
      rw [List.find?_cons, hne]
      exact ih x hnd.2 hx'

/-- openSessionLoop with an empty JobIndex only accumulates the UIDs of the
jobs that pass validity: every UpdateJobCondition call inside the loop fails
on the index lookup, so nothing else of the state moves. -/
theorem openSessionLoop_spec (fns : List JobValidFn) :
    ∀ (jobs : List JobInfo) (st : SessionState), st.jobIndexed = [] →
      openSessionLoop fns st jobs =
        { st with jobsList := st.jobsList ++
            (jobs.filter (fun j => (JobValid fns j).isNone)).map JobInfo.uid } := by
  intro jobs
  induction jobs with
  | nil => intro st h; simp [openSessionLoop]
  | cons job rest ih =>
    intro st h
    rw [openSessionLoop]
    cases hv : JobValid fns job with
    | some vjr =>
      have hupd : UpdateJobCondition st job (unschedulableCondition st.uid vjr) =
          Except.error "failed to find job" := by
        unfold UpdateJobCondition SessionState.lookupJob
        rw [h]
        simp
      have hfilter : (JobValid fns job).isNone = false := by rw [hv]; rfl
      rcases Bool.eq_false_or_eq_true vjr.pass with hp | hp <;>
        simp [hp, hupd, ih st h, List.filter_cons, hfilter]
    | none =>
      have hfilter : (JobValid fns job).isNone = true := by rw [hv]; rfl
      rw [ih { st with jobsList := st.jobsList ++ [job.uid] } h]
      simp [List.filter_cons, hfilter]

/-- The full effect of openSession: the store is the snapshot, the
schedulable list and the index are exactly the jobs passing validity, and no
job object was touched (in particular no condition was recorded). -/
theorem openSession_spec (ssnUID : String) (fns : List JobValidFn) (snap : Snapshot) :
    openSession ssnUID fns snap =
      { uid := ssnUID
        allJobs := snap.jobs
        jobsList := (snap.jobs.filter (fun j => (JobValid fns j).isNone)).map JobInfo.uid
        jobIndexed := (snap.jobs.filter (fun j => (JobValid fns j).isNone)).map JobInfo.uid
        tasks := snap.tasks
        nodes := snap.nodes
        queues := snap.queues
        topDogReadyJobs := []
        events := [] } := by
  simp only [openSession]
  rw [openSessionLoop_spec fns snap.jobs _ rfl]
  simp

end Lemmas

/-- C1: a snapshot job that the registered validity policies pass (in
particular when none is registered, since JobValid of an empty registry is
none) ends up in the schedulable list Session.Jobs and is indexed by its UID
in Session.JobIndex, with the job object untouched. -/
theorem openSession_valid_job_in_session (ssnUID : String) (fns : List JobValidFn)
    (snap : Snapshot) (job : JobInfo)
    (hmem : job ∈ snap.jobs)
    (hnodup : (snap.jobs.map JobInfo.uid).Nodup)
    (hvalid : JobValid fns job = none) :
    job.uid ∈ (openSession ssnUID fns snap).jobsList ∧
      (openSession ssnUID fns snap).lookupJob job.uid = some job := by
  rw [openSession_spec]
  have hfj : job ∈ snap.jobs.filter (fun j => (JobValid fns j).isNone) :=
    List.mem_filter.mpr ⟨hmem, by rw [hvalid]; rfl⟩
  have huid : job.uid ∈ (snap.jobs.filter (fun j => (JobValid fns j).isNone)).map JobInfo.uid :=
    List.mem_map_of_mem JobInfo.uid hfj
  refine ⟨huid, ?_⟩
  have hc : ((snap.jobs.filter (fun j => (JobValid fns j).isNone)).map JobInfo.uid).contains
      job.uid = true := List.elem_iff.mpr huid
  simp only [SessionState.lookupJob, hc, if_true]
  exact find?_eq_of_key_nodup JobInfo.uid snap.jobs job hnodup hmem

/-- Witness for C1 at a concrete snapshot with one job and no registered
validity function. -/
theorem openSession_valid_job_in_session_witness :
    wJob ∈ wSnap.jobs ∧ (wSnap.jobs.map JobInfo.uid).Nodup ∧
      JobValid [] wJob = none ∧
      (wJob.uid ∈ (openSession "s" [] wSnap).jobsList ∧
        (openSession "s" [] wSnap).lookupJob wJob.uid = some wJob) :=
  ⟨by decide, by decide, rfl,
    openSession_valid_job_in_session "s" [] wSnap wJob (by decide) (by decide) rfl⟩

/-- C2 fails on the code: openSession runs the validity loop before
ssn.JobIndex is populated (session.go lines 87-112), so the UpdateJobCondition
call at line 99 always returns "failed to find job" and the Unschedulable
condition is never recorded on the invalid job.  At this concrete snapshot the
job fails validity, is excluded from the schedulable list, and every job
object of the cycle is left exactly as the snapshot delivered it (no
condition attached). -/
theorem openSession_invalid_job_condition_lost :
    (JobValid failAllPolicy { uid := 7, podGroup := some (freshPodGroup 1) }).isSome = true ∧
      (openSession "s" failAllPolicy c2snap).jobsList = [] ∧
      (openSession "s" failAllPolicy c2snap).allJobs = c2snap.jobs := by
  refine ⟨rfl, ?_, ?_⟩ <;> (rw [openSession_spec]; try rfl)

/-- C4: the phase the status reconciler computes is Unknown exactly when the
job has a Running task and carries an Unschedulable condition of this session;
otherwise it is Running exactly when the allocated count strictly exceeds the
gang minimum, and Pending exactly otherwise. -/
theorem jobStatus_phase_characterization (ssnUID : String) (tasks : List TaskInfo)
    (juid : Nat) (pg : PodGroup) :
    ((jobStatus ssnUID tasks juid pg).phase = PodGroupPhase.Unknown ↔
        ((taskStatusIndex tasks juid .Running).length ≠ 0 ∧
          hasSessionUnschedulableCondition ssnUID pg.status.conditions = true)) ∧
      ((jobStatus ssnUID tasks juid pg).phase = PodGroupPhase.Running ↔
        (¬((taskStatusIndex tasks juid .Running).length ≠ 0 ∧
            hasSessionUnschedulableCondition ssnUID pg.status.conditions = true) ∧
          (countAllocated tasks juid : Int) > pg.spec.minMember)) ∧
      ((jobStatus ssnUID tasks juid pg).phase = PodGroupPhase.Pending ↔
        (¬((taskStatusIndex tasks juid .Running).length ≠ 0 ∧
            hasSessionUnschedulableCondition ssnUID pg.status.conditions = true) ∧
          ¬((countAllocated tasks juid : Int) > pg.spec.minMember))) := by
  simp only [jobStatus]
  split_ifs with h1 h2 <;> simp_all

/-- C8: the status reconciler is idempotent (a second application to the
reconciled status reproduces it exactly) and its counters are recomputed from
the buckets of the task-status index, independent of their prior values. -/
theorem jobStatus_recompute_idempotent (ssnUID : String) (tasks : List TaskInfo)
    (juid : Nat) (pg : PodGroup) :
    jobStatus ssnUID tasks juid { pg with status := jobStatus ssnUID tasks juid pg } =
        jobStatus ssnUID tasks juid pg ∧
      (jobStatus ssnUID tasks juid pg).running = (taskStatusIndex tasks juid .Running).length ∧
      (jobStatus ssnUID tasks juid pg).failed = (taskStatusIndex tasks juid .Failed).length ∧
      (jobStatus ssnUID tasks juid pg).succeeded =
        (taskStatusIndex tasks juid .Succeeded).length := by
  simp only [jobStatus]
  split_ifs <;> simp_all

/-- Keyed lookup commutes with a keyed store update whose function preserves
the key. -/
theorem find?_map_update {α κ : Type} [BEq κ] [LawfulBEq κ] (key : α → κ) (f : α → α)
    (hf : ∀ x, key (f x) = key x) (k : κ) :
    ∀ l : List α,
      (l.map (fun x => if key x == k then f x else x)).find? (fun x => key x == k) =
        (l.find? (fun x => key x == k)).map f := by
  intro l
  induction l with
  | nil => rfl
  | cons a l ih =>
    by_cases hb : (key a == k) = true
    · have hfb : (key (f a) == k) = true := by rw [hf a]; exact hb
      simp [List.find?_cons, hb, hfb]
    · have hb' : (key a == k) = false := by simpa using hb
      simp only [List.map_cons, hb', if_neg, Bool.false_eq_true, not_false_iff, ite_false]
      rw [List.find?_cons, hb', List.find?_cons, hb']
      exact ih

/-- The slot update replaces the first condition of the matching type and
touches nothing else. -/
theorem updateConditions_replace_first (cond : PodGroupCondition) :
    ∀ (pre : List PodGroupCondition) (c : PodGroupCondition)
      (post : List PodGroupCondition),
      (∀ c' ∈ pre, c'.condType ≠ cond.condType) → c.condType = cond.condType →
      updateConditions (pre ++ c :: post) cond = pre ++ cond :: post := by
  intro pre
  induction pre with
  | nil =>
    intro c post _ hc
    simp [updateConditions, hc]
  | cons a pre ih =>
    intro c post hpre hc
    have ha : (a.condType == cond.condType) = false := by
      simpa using hpre a (List.mem_cons_self a pre)
    simp only [List.cons_append, updateConditions, ha, Bool.false_eq_true, if_false]
    exact congrArg (List.cons a) (ih c post (fun c' hc' => hpre c' (List.mem_cons_of_mem a hc')) hc)

/-- When no condition of the type is present, the slot update appends. -/
theorem updateConditions_append_of_absent (cond : PodGroupCondition) :
    ∀ conds : List PodGroupCondition,
      (∀ c ∈ conds, c.condType ≠ cond.condType) →
      updateConditions conds cond = conds ++ [cond] := by
  intro conds
  induction conds with
  | nil => intro _; rfl
  | cons a cs ih =>
    intro h
    have ha : (a.condType == cond.condType) = false := by
      simpa using h a (List.mem_cons_self a cs)
    simp only [updateConditions, ha, Bool.false_eq_true, if_false, List.cons_append]
    rw [ih (fun c hc => h c (List.mem_cons_of_mem a hc))]

/-- Unfolding of the per-type count over a cons cell. -/
theorem countType_cons (c : PodGroupCondition) (cs : List PodGroupCondition) (t : String) :
    countType (c :: cs) t =
      if (c.condType == t) = true then countType cs t + 1 else countType cs t := by
  simp only [countType, List.filter_cons]
  split <;> simp

/-- Exact effect of the slot update on the per-type counts: the count of the
updated type becomes one if it was zero and is otherwise unchanged, and every
other count is unchanged. -/
theorem countType_updateConditions (cond : PodGroupCondition) (t : String) :
    ∀ conds : List PodGroupCondition,
      countType (updateConditions conds cond) t =
        if t = cond.condType ∧ countType conds t = 0 then 1 else countType conds t := by
  intro conds
  induction conds with
  | nil =>
    by_cases ht : t = cond.condType
    · simp [updateConditions, countType_cons, countType, ht]
    · have : (cond.condType == t) = false := by simpa using fun h => ht h.symm
      simp [updateConditions, countType_cons, countType, this, ht]
  | cons a cs ih =>
    by_cases ha : (a.condType == cond.condType) = true
    · have haeq : a.condType = cond.condType := by simpa using ha
      simp only [updateConditions, ha, if_true]
      by_cases ht : t = cond.condType
      · have hat : (a.condType == t) = true := by simp [haeq, ht]
        have hct : (cond.condType == t) = true := by simp [ht]
        simp [countType_cons, hat, hct, ht, haeq]
      · have hat : (a.condType == t) = false := by
          rw [beq_eq_false_iff_ne, haeq]
          exact fun h => ht h.symm
        have hct : (cond.condType == t) = false := by
          rw [beq_eq_false_iff_ne]
          exact fun h => ht h.symm
        simp [countType_cons, hat, hct, ht]
    · have ha' : (a.condType == cond.condType) = false := by simpa using ha
      simp only [updateConditions, ha', Bool.false_eq_true, if_false]
      by_cases hat : (a.condType == t) = true
      · have haeqt : a.condType = t := by simpa using hat
        have ht : ¬t = cond.condType := by
          intro hcontra
          have habs : a.condType = cond.condType := haeqt.trans hcontra
          rw [habs] at ha'
          simp at ha'
        simp [countType_cons, hat, ih, ht]
      · have hat' : (a.condType == t) = false := by simpa using hat
        simp [countType_cons, hat', ih]

/-- The slot update preserves the one-condition-per-type bound. -/
theorem countType_updateConditions_le (cond : PodGroupCondition)
    (conds : List PodGroupCondition) (h : ∀ t, countType conds t ≤ 1) :
    ∀ t, countType (updateConditions conds cond) t ≤ 1 := by
  intro t
  rw [countType_updateConditions]
  split
  · exact le_refl 1
  · exact h t

/-- C9: for a job found in the session index, UpdateJobCondition succeeds and
rewrites exactly the condition list of that job through the slot update,
which replaces the first condition of the same type (leaving every other
entry in place) or appends when the type is absent, and therefore preserves
the at-most-one-condition-per-type invariant. -/
theorem update_job_condition_one_slot (st : SessionState) (jobInfo job : JobInfo)
    (pg : PodGroup) (cond : PodGroupCondition)
    (hfind : st.lookupJob jobInfo.uid = some job)
    (hpg : job.podGroup = some pg) :
    (∃ st', UpdateJobCondition st jobInfo cond = Except.ok st' ∧
        st'.lookupJob jobInfo.uid = some (job.withCondition cond) ∧
        (job.withCondition cond).podGroup = some { pg with status :=
          { pg.status with conditions := updateConditions pg.status.conditions cond } }) ∧
      (∀ pre c post, pg.status.conditions = pre ++ c :: post →
        (∀ c' ∈ pre, c'.condType ≠ cond.condType) → c.condType = cond.condType →
        updateConditions pg.status.conditions cond = pre ++ cond :: post) ∧
      ((∀ c ∈ pg.status.conditions, c.condType ≠ cond.condType) →
        updateConditions pg.status.conditions cond = pg.status.conditions ++ [cond]) ∧
      ((∀ t, countType pg.status.conditions t ≤ 1) →
        ∀ t, countType (updateConditions pg.status.conditions cond) t ≤ 1) := by
  refine ⟨?_, ?_, ?_, ?_⟩
  · have hcontains : st.jobIndexed.contains jobInfo.uid = true := by
      unfold SessionState.lookupJob at hfind
      by_cases hb : st.jobIndexed.contains jobInfo.uid = true
      · exact hb
      · rw [if_neg hb] at hfind; cases hfind
    have hfound : st.allJobs.find? (fun j => j.uid == jobInfo.uid) = some job := by
      unfold SessionState.lookupJob at hfind
      rwa [if_pos hcontains] at hfind
    refine ⟨{ st with allJobs := (updateJobFields st.allJobs jobInfo.uid
        (fun j => j.withCondition cond)) }, ?_, ?_, ?_⟩
    · unfold UpdateJobCondition
      rw [hfind]
    · unfold SessionState.lookupJob
      simp only [hcontains, if_true]
      unfold updateJobFields
      rw [find?_map_update JobInfo.uid (fun j => j.withCondition cond) (fun _ => rfl)
        jobInfo.uid st.allJobs, hfound]
      rfl
    · simp [JobInfo.withCondition, hpg]
  · intro pre c post hsplit hpre hc
    rw [hsplit]
    exact updateConditions_replace_first cond pre c post hpre hc
  · exact updateConditions_append_of_absent cond pg.status.conditions
  · exact countType_updateConditions_le cond pg.status.conditions

/-- Witness for C9 at a concrete session: updating the Unschedulable slot of
an indexed job succeeds and the indexed object carries the rewritten list. -/
theorem update_job_condition_one_slot_witness :
    c9st.lookupJob c9job.uid = some c9job ∧
      (∃ st', UpdateJobCondition c9st c9job (wCond podGroupUnschedulableType "s") =
          Except.ok st' ∧
        st'.lookupJob c9job.uid =
          some (c9job.withCondition (wCond podGroupUnschedulableType "s"))) :=
  ⟨rfl,
    ((update_job_condition_one_slot c9st c9job c9job c9pg
        (wCond podGroupUnschedulableType "s") rfl rfl).1).imp
      (fun _ hst => ⟨hst.1, hst.2.1⟩)⟩

/-- C5: a volume reservation failure makes Allocate return exactly that error
with the session state untouched — no status change, no node-list or capacity
change, no event, no backfill-ready entry. -/
theorem allocate_volume_failure_no_mutation (cfg : SessionConfig) (st : SessionState)
    (task : TaskInfo) (hostname : String) (usingBackfillTaskRes : Bool) (e : String)
    (h : cfg.cache.allocateVolumes task.uid hostname = some e) :
    Allocate cfg st task hostname usingBackfillTaskRes = (AllocResult.err e, st) := by
  unfold Allocate
  rw [h]

/-- Witness for C5 at a concrete call on a cache whose volume reservation
fails. -/
theorem allocate_volume_failure_witness :
    c5cfg.cache.allocateVolumes (wTask 1 1).uid "n" = some "boom" ∧
      Allocate c5cfg (emptySession "s") (wTask 1 1) "n" false =
        (AllocResult.err "boom", emptySession "s") :=
  ⟨rfl, allocate_volume_failure_no_mutation c5cfg (emptySession "s") (wTask 1 1) "n"
    false "boom" rfl⟩

/-- Keyed task lookup after a keyed task update (the update function keeps
the UID). -/
theorem getTask_after_update (ts : List TaskInfo) (tid : Nat) (f : TaskInfo → TaskInfo)
    (hf : ∀ x, (f x).uid = x.uid) :
    (updateTaskFields ts tid f).find? (fun x => x.uid == tid) =
      (ts.find? (fun x => x.uid == tid)).map f :=
  find?_map_update TaskInfo.uid f hf tid ts

/-- Keyed node lookup after a keyed node update (the update function keeps
the name). -/
theorem lookupNode_after_update (ns : List NodeInfo) (name : String)
    (f : NodeInfo → NodeInfo) (hf : ∀ x, (f x).name = x.name) :
    (updateNodeFields ns name f).find? (fun x => x.name == name) =
      (ns.find? (fun x => x.name == name)).map f :=
  find?_map_update NodeInfo.name f hf name ns

/-- The eviction bookkeeping keeps the node name. -/
theorem updateTaskReleasing_name (x : NodeInfo) (tid : Nat) (r : Int) :
    (x.updateTaskReleasing tid r).name = x.name := by
  unfold NodeInfo.updateTaskReleasing
  split <;> rfl

/-- Attaching a task keeps the node name. -/
theorem addTask_name (x : NodeInfo) (tid : Nat) (r : Int) :
    (x.addTask tid r).name = x.name := by
  unfold NodeInfo.addTask
  split <;> rfl

/-- C7: a cache eviction failure aborts Evict with that error and no state
change; a successful eviction turns the task status to Releasing in the
session, moves exactly the task request from used to releasing on its node
(idle and the task list untouched), and fires every deallocate handler. -/
theorem evict_spec_behavior (cfg : SessionConfig) (st : SessionState) (t : TaskInfo)
    (reason : String) :
    (∀ e, cfg.cache.evict t.uid reason = some e →
      Evict cfg st t reason = (AllocResult.err e, st)) ∧
    (cfg.cache.evict t.uid reason = none →
      ∀ n : NodeInfo, st.getTask t.uid = some t →
        (st.lookupJob t.job).isSome = true →
        st.lookupNode t.nodeName = some n →
        n.tasks.contains t.uid = true →
        (Evict cfg st t reason).1 = AllocResult.ok ∧
        (Evict cfg st t reason).2.getTask t.uid =
          some { t with status := TaskStatus.Releasing } ∧
        (Evict cfg st t reason).2.lookupNode t.nodeName =
          some { n with used := n.used - t.resreq, releasing := n.releasing + t.resreq } ∧
        (Evict cfg st t reason).2.events = st.events ++
          (cfg.eventHandlers.filter (fun h => h.hasDeallocateFn)).map
            (fun _ => Event.deallocate t.uid)) := by
  constructor
  · intro e h
    unfold Evict
    rw [h]
  · intro hev n hget hjob hnode hmem
    have hget' : st.tasks.find? (fun x => x.uid == t.uid) = some t := hget
    have hnode' : st.nodes.find? (fun x => x.name == t.nodeName) = some n := hnode
    unfold Evict
    rw [hev]
    simp only [hjob, if_true, SessionState.lookupNode, hnode', Option.isSome_some]
    refine ⟨by trivial, ?_, ?_, by trivial⟩
    · show (updateTaskFields st.tasks t.uid
          (fun x => { x with status := TaskStatus.Releasing })).find?
          (fun x => x.uid == t.uid) = some { t with status := TaskStatus.Releasing }
      rw [getTask_after_update st.tasks t.uid
        (fun x => { x with status := TaskStatus.Releasing }) (fun _ => rfl), hget']
      rfl
    · show (updateNodeFields st.nodes t.nodeName
          (fun x => x.updateTaskReleasing t.uid t.resreq)).find?
          (fun x => x.name == t.nodeName) =
        some { n with used := n.used - t.resreq, releasing := n.releasing + t.resreq }
      rw [lookupNode_after_update st.nodes t.nodeName
        (fun x => x.updateTaskReleasing t.uid t.resreq)
        (fun x => updateTaskReleasing_name x t.uid t.resreq), hnode']
      show some (n.updateTaskReleasing t.uid t.resreq) = _
      unfold NodeInfo.updateTaskReleasing
      rw [if_pos hmem]

/-- Witness for C7 at a concrete running task on a concrete node, with one
deallocate handler registered. -/
theorem evict_spec_behavior_witness :
    c7cfg.cache.evict c7task.uid "preempted" = none ∧
      (Evict c7cfg c7st c7task "preempted").1 = AllocResult.ok ∧
      (Evict c7cfg c7st c7task "preempted").2.getTask c7task.uid =
        some { c7task with status := TaskStatus.Releasing } ∧
      (Evict c7cfg c7st c7task "preempted").2.lookupNode c7task.nodeName =
        some { c7node with
               used := c7node.used - c7task.resreq
               releasing := c7node.releasing + c7task.resreq } ∧
      (Evict c7cfg c7st c7task "preempted").2.events = c7st.events ++
        (c7cfg.eventHandlers.filter (fun h => h.hasDeallocateFn)).map
          (fun _ => Event.deallocate c7task.uid) := by
  have h := (evict_spec_behavior c7cfg c7st c7task "preempted").2 rfl c7node
    (by decide) (by decide) (by decide) (by decide)
  exact ⟨rfl, h.1, h.2.1, h.2.2.1, h.2.2.2⟩

/-- Membership in the identity projection of a task store. -/
theorem uidJob_mem (ts : List TaskInfo) (u j : Nat) :
    (u, j) ∈ uidJob ts ↔ ∃ x, x ∈ ts ∧ x.uid = u ∧ x.job = j := by
  constructor
  · intro h
    rcases List.mem_map.mp h with ⟨x, hx, he⟩
    exact ⟨x, hx, congrArg Prod.fst he, congrArg Prod.snd he⟩
  · rintro ⟨x, hx, h1, h2⟩
    exact List.mem_map.mpr ⟨x, hx, by rw [h1, h2]⟩

/-- A keyed task update whose function keeps UID and owning job keeps the
identity projection. -/
@[simp]
theorem uidJob_updateTaskFields (ts : List TaskInfo) (tid : Nat) (f : TaskInfo → TaskInfo)
    (hf : ∀ x, (f x).uid = x.uid ∧ (f x).job = x.job) :
    uidJob (updateTaskFields ts tid f) = uidJob ts := by
  unfold uidJob updateTaskFields
  rw [List.map_map, List.map_eq_map_iff]
  intro a _
  by_cases h : a.uid = tid
  · simp [h, (hf a).1, (hf a).2]
  · simp [h]

/-- The UID list of a store is determined by its identity projection. -/
theorem uids_of_uidJob (ts ts' : List TaskInfo) (h : uidJob ts = uidJob ts') :
    ts.map TaskInfo.uid = ts'.map TaskInfo.uid := by
  have h1 : ts.map TaskInfo.uid = (uidJob ts).map Prod.fst := by
    unfold uidJob
    rw [List.map_map]
    rfl
  have h2 : ts'.map TaskInfo.uid = (uidJob ts').map Prod.fst := by
    unfold uidJob
    rw [List.map_map]
    rfl
  rw [h1, h2, h]

/-- In a store with pairwise distinct UIDs, two members with the same UID are
the same entry. -/
theorem eq_of_mem_uid_nodup (ts : List TaskInfo)
    (hnd : (ts.map TaskInfo.uid).Nodup) :
    ∀ x ∈ ts, ∀ y ∈ ts, x.uid = y.uid → x = y := by
  induction ts with
  | nil => intro x hx; cases hx
  | cons a l ih =>
    rw [List.map_cons, List.nodup_cons] at hnd
    intro x hx y hy huid
    rcases List.mem_cons.mp hx with rfl | hx' <;> rcases List.mem_cons.mp hy with rfl | hy'
    · rfl
    · exact absurd (huid ▸ List.mem_map_of_mem TaskInfo.uid hy') hnd.1
    · exact absurd (huid ▸ List.mem_map_of_mem TaskInfo.uid hx') hnd.1
    · exact ih hnd.2 x hx' y hy' huid

/-- A found job carries the UID it was looked up under. -/
theorem lookupJob_uid (st : SessionState) (u : Nat) (j : JobInfo)
    (h : st.lookupJob u = some j) : j.uid = u := by
  unfold SessionState.lookupJob at h
  by_cases hb : st.jobIndexed.contains u = true
  · rw [if_pos hb] at h
    have := List.find?_some h
    simpa using this
  · rw [if_neg hb] at h
    cases h

/-- dispatch keeps the identity projection of the task store and the job
index. -/
theorem dispatch_shape (cfg : SessionConfig) (st : SessionState) (tid : Nat) :
    uidJob (dispatch cfg st tid).2.tasks = uidJob st.tasks ∧
      (dispatch cfg st tid).2.allJobs = st.allJobs ∧
      (dispatch cfg st tid).2.jobIndexed = st.jobIndexed ∧
      (dispatch cfg st tid).2.topDogReadyJobs = st.topDogReadyJobs := by
  unfold dispatch
  split
  · exact ⟨rfl, rfl, rfl, rfl⟩
  · dsimp only
    split
    · exact ⟨rfl, rfl, rfl, rfl⟩
    · split
      · exact ⟨uidJob_updateTaskFields st.tasks tid _ (fun _ => ⟨rfl, rfl⟩), rfl, rfl, rfl⟩
      · exact ⟨rfl, rfl, rfl, rfl⟩

/-- The dispatch pass keeps the identity projection of the task store and the
job index. -/
theorem dispatchAll_shape (cfg : SessionConfig) :
    ∀ (batch : List Nat) (st : SessionState),
      uidJob (dispatchAll cfg st batch).tasks = uidJob st.tasks ∧
        (dispatchAll cfg st batch).allJobs = st.allJobs ∧
        (dispatchAll cfg st batch).jobIndexed = st.jobIndexed ∧
        (dispatchAll cfg st batch).topDogReadyJobs = st.topDogReadyJobs := by
  intro batch
  induction batch with
  | nil => intro st; exact ⟨rfl, rfl, rfl, rfl⟩
  | cons tid rest ih =>
    intro st
    have h1 := dispatch_shape cfg st tid
    have h2 := ih (dispatch cfg st tid).2
    exact ⟨h2.1.trans h1.1, h2.2.1.trans h1.2.1, h2.2.2.1.trans h1.2.2.1,
      h2.2.2.2.trans h1.2.2.2⟩

/-- The task store of the bookkeeping prefix: node-name assignment applied to
the status-updated store (the node attach and the events do not touch it). -/
theorem allocatePre_tasks (cfg : SessionConfig) (st : SessionState) (task : TaskInfo)
    (hostname : String) (b : Bool) :
    (allocatePre cfg st task hostname b).tasks =
      updateTaskFields (allocStatus st task b).tasks task.uid
        (fun t => { t with nodeName := hostname }) := by
  unfold allocatePre fireAllocateEvents allocAttach allocNodeName
  split_ifs <;> rfl

/-- The bookkeeping prefix of Allocate keeps the identity projection of the
task store, the job index and the backfill-ready set. -/
theorem allocatePre_shape (cfg : SessionConfig) (st : SessionState) (task : TaskInfo)
    (hostname : String) (b : Bool) :
    uidJob (allocatePre cfg st task hostname b).tasks = uidJob st.tasks ∧
      (allocatePre cfg st task hostname b).allJobs = st.allJobs ∧
      (allocatePre cfg st task hostname b).jobIndexed = st.jobIndexed ∧
      (allocatePre cfg st task hostname b).topDogReadyJobs = st.topDogReadyJobs := by
  refine ⟨?_, ?_, ?_, ?_⟩
  · rw [allocatePre_tasks]
    rw [uidJob_updateTaskFields (allocStatus st task b).tasks task.uid
      (fun t => { t with nodeName := hostname }) (fun _ => ⟨rfl, rfl⟩)]
    unfold allocStatus
    split_ifs <;> simp
  all_goals
    unfold allocatePre fireAllocateEvents allocAttach allocNodeName allocStatus
  all_goals split_ifs <;> rfl

/-- Job lookup only reads the job index, which the mutating primitives keep. -/
theorem lookupJob_congr (st st' : SessionState) (h1 : st'.allJobs = st.allJobs)
    (h2 : st'.jobIndexed = st.jobIndexed) (u : Nat) :
    st'.lookupJob u = st.lookupJob u := by
  unfold SessionState.lookupJob
  rw [h1, h2]

/-- Evict keeps the identity projection of the task store and the job index. -/
theorem evict_shape (cfg : SessionConfig) (st : SessionState) (t : TaskInfo)
    (reason : String) :
    uidJob (Evict cfg st t reason).2.tasks = uidJob st.tasks ∧
      (Evict cfg st t reason).2.allJobs = st.allJobs ∧
      (Evict cfg st t reason).2.jobIndexed = st.jobIndexed ∧
      (Evict cfg st t reason).2.topDogReadyJobs = st.topDogReadyJobs := by
  unfold Evict fireDeallocateEvents
  split
  · exact ⟨rfl, rfl, rfl, rfl⟩
  · dsimp only
    split_ifs <;> refine ⟨?_, rfl, rfl, rfl⟩ <;> simp

/-- A keyed task update that keeps the owning job and never writes Binding
preserves the no-Binding property of a job. -/
theorem NB_updateTaskFields (juid : Nat) (ts : List TaskInfo) (tid : Nat)
    (f : TaskInfo → TaskInfo)
    (hf : ∀ x, (f x).job = x.job)
    (hs : ∀ x, (f x).status = x.status ∨ (f x).status ≠ TaskStatus.Binding)
    (h : ∀ t ∈ ts, t.job = juid → t.status ≠ TaskStatus.Binding) :
    ∀ t ∈ updateTaskFields ts tid f, t.job = juid → t.status ≠ TaskStatus.Binding := by
  intro t ht hj
  rcases List.mem_map.mp ht with ⟨x, hx, rfl⟩
  by_cases hb : (x.uid == tid) = true
  · rw [if_pos hb] at hj ⊢
    rcases hs x with hst | hst
    · rw [hst]
      exact h x hx ((hf x) ▸ hj)
    · exact hst
  · rw [if_neg hb] at hj ⊢
    exact h x hx hj

/-- dispatch can set Binding only on the task it was given; tasks of a job it
was not dispatching stay off Binding. -/
theorem NB_dispatch (cfg : SessionConfig) (st : SessionState) (tid : Nat) (juid : Nat)
    (h : NoBindingFor juid st)
    (hother : ∀ x ∈ st.tasks, x.uid = tid → x.job ≠ juid) :
    NoBindingFor juid (dispatch cfg st tid).2 := by
  unfold dispatch
  split
  · exact h
  · dsimp only
    split
    · exact h
    · split
      · intro t ht hj
        rcases List.mem_map.mp ht with ⟨x, hx, rfl⟩
        by_cases hb : (x.uid == tid) = true
        · rw [if_pos hb] at hj
          exact absurd hj (hother x hx (by simpa using hb))
        · rw [if_neg hb] at hj ⊢
          exact h x hx hj
      · exact h

/-- The dispatch pass over a batch of task UIDs of another job leaves every
task of this job off Binding. -/
theorem NB_dispatchAll (cfg : SessionConfig) (juid : Nat) :
    ∀ (batch : List Nat) (st : SessionState),
      NoBindingFor juid st →
      (∀ x ∈ st.tasks, x.uid ∈ batch → x.job ≠ juid) →
      NoBindingFor juid (dispatchAll cfg st batch) := by
  intro batch
  induction batch with
  | nil => intro st h _; exact h
  | cons tid rest ih =>
    intro st h hother
    show NoBindingFor juid (dispatchAll cfg (dispatch cfg st tid).2 rest)
    apply ih
    · exact NB_dispatch cfg st tid juid h
        (fun x hx hu => hother x hx (hu ▸ List.mem_cons_self tid rest))
    · intro x hx hu
      have hprev : (x.uid, x.job) ∈ uidJob st.tasks := by
        rw [← (dispatch_shape cfg st tid).1]
        exact (uidJob_mem _ _ _).mpr ⟨x, hx, rfl, rfl⟩
      rcases (uidJob_mem _ _ _).mp hprev with ⟨y, hy, hyu, hyj⟩
      rw [← hyj]
      exact hother y hy (List.mem_cons_of_mem tid (hyu ▸ hu))

/-- The status step writes only Allocated or AllocatedOverBackfill: no task
reaches Binding through it. -/
theorem NB_allocStatus (st : SessionState) (task : TaskInfo) (b : Bool) (juid : Nat)
    (h : NoBindingFor juid st) :
    NoBindingFor juid (allocStatus st task b) := by
  unfold NoBindingFor allocStatus
  split_ifs with h1 h2
  · exact NB_updateTaskFields juid st.tasks task.uid
      (fun t => { t with status := TaskStatus.AllocatedOverBackfill })
      (fun _ => rfl) (fun _ => Or.inr (by simp)) h
  · exact NB_updateTaskFields juid st.tasks task.uid
      (fun t => { t with status := TaskStatus.Allocated })
      (fun _ => rfl) (fun _ => Or.inr (by simp)) h
  · exact h

/-- The bookkeeping prefix of Allocate writes only Allocated,
AllocatedOverBackfill and the node name onto the task: no task reaches
Binding through it. -/
theorem NB_allocatePre (cfg : SessionConfig) (st : SessionState) (task : TaskInfo)
    (hostname : String) (b : Bool) (juid : Nat)
    (h : NoBindingFor juid st) :
    NoBindingFor juid (allocatePre cfg st task hostname b) := by
  intro t ht hj
  rw [allocatePre_tasks] at ht
  exact NB_updateTaskFields juid (allocStatus st task b).tasks task.uid
    (fun t => { t with nodeName := hostname }) (fun _ => rfl) (fun _ => Or.inl rfl)
    (NB_allocStatus st task b juid h) t ht hj

/-- Evict writes only Releasing: no task reaches Binding through it. -/
theorem NB_evict (cfg : SessionConfig) (st : SessionState) (t : TaskInfo)
    (reason : String) (juid : Nat) (h : NoBindingFor juid st) :
    NoBindingFor juid (Evict cfg st t reason).2 := by
  unfold Evict fireDeallocateEvents
  split
  · exact h
  · dsimp only
    split_ifs <;>
      first
        | exact NB_updateTaskFields juid st.tasks t.uid
            (fun x => { x with status := TaskStatus.Releasing })
            (fun _ => rfl) (fun _ => Or.inr (by simp)) h
        | exact h

/-- An Allocate call that is a backfill placement whenever it concerns the
given job never brings a task of that job to Binding. -/
theorem NB_allocate (cfg : SessionConfig) (st : SessionState) (task : TaskInfo)
    (hostname : String) (b : Bool) (juid : Nat)
    (hnodup : UidsNodup st)
    (hbf : task.job = juid → b = true)
    (h : NoBindingFor juid st) :
    NoBindingFor juid (Allocate cfg st task hostname b).2 := by
  unfold Allocate
  split
  · exact h
  · dsimp only
    split
    next job hjob =>
      split_ifs with hr1 hr2
      · have hb : b = false := by
          rcases Bool.and_eq_true_iff.mp hr1 with ⟨_, hnb⟩
          simpa using hnb
        have hshape := allocatePre_shape cfg st task hostname b
        have hnodup4 : UidsNodup (allocatePre cfg st task hostname b) := by
          unfold UidsNodup
          rw [uids_of_uidJob _ _ hshape.1]
          exact hnodup
        apply NB_dispatchAll
        · exact NB_allocatePre cfg st task hostname b juid h
        · intro x hx hu
          rcases List.mem_map.mp hu with ⟨y, hyf, hyu⟩
          have hy := List.mem_filter.mp hyf
          have hyjob : y.job = job.uid := by
            rcases Bool.and_eq_true_iff.mp hy.2 with ⟨h1, _⟩
            simpa using h1
          have hxy : x = y :=
            eq_of_mem_uid_nodup _ hnodup4 x hx y hy.1 hyu.symm
          rw [hxy, hyjob]
          have hju : job.uid = task.job := lookupJob_uid _ _ _ hjob
          intro hc
          have : b = true := hbf (by rw [← hju, hc])
          rw [hb] at this
          cases this
      · exact NB_allocatePre cfg st task hostname b juid h
      · exact NB_allocatePre cfg st task hostname b juid h
      · exact NB_allocatePre cfg st task hostname b juid h
    next hjob =>
      split_ifs with hr
      · exact NB_allocatePre cfg st task hostname b juid h
      · exact NB_allocatePre cfg st task hostname b juid h

/-- Allocate keeps the identity projection of the task store. -/
theorem uidJob_allocate (cfg : SessionConfig) (st : SessionState) (task : TaskInfo)
    (hostname : String) (b : Bool) :
    uidJob (Allocate cfg st task hostname b).2.tasks = uidJob st.tasks := by
  unfold Allocate
  split
  · rfl
  · dsimp only
    split
    · split_ifs
      · rw [(dispatchAll_shape cfg _ _).1, (allocatePre_shape cfg st task hostname b).1]
      · exact (allocatePre_shape cfg st task hostname b).1
      · exact (allocatePre_shape cfg st task hostname b).1
      · exact (allocatePre_shape cfg st task hostname b).1
    · split_ifs <;> exact (allocatePre_shape cfg st task hostname b).1

/-- One primitive call keeps the identity projection of the task store. -/
theorem uidJob_runStep (cfg : SessionConfig) (st : SessionState) (s : Step) :
    uidJob (runStep cfg st s).tasks = uidJob st.tasks := by
  cases s with
  | alloc t hn b => exact uidJob_allocate cfg st t hn b
  | evict t r => exact (evict_shape cfg st t r).1

/-- One primitive call that is backfill-only for the given job keeps its
tasks off Binding. -/
theorem NB_runStep (cfg : SessionConfig) (st : SessionState) (s : Step) (juid : Nat)
    (hnodup : UidsNodup st) (hbf : s.backfillOnlyFor juid)
    (h : NoBindingFor juid st) :
    NoBindingFor juid (runStep cfg st s) := by
  cases s with
  | alloc t hn b => exact NB_allocate cfg st t hn b juid hnodup hbf h
  | evict t r => exact NB_evict cfg st t r juid h

/-- A whole cycle of primitive calls that are backfill-only for the given job
keeps its tasks off Binding. -/
theorem NB_runSteps (cfg : SessionConfig) (juid : Nat) :
    ∀ (steps : List Step) (st : SessionState),
      UidsNodup st → NoBindingFor juid st →
      (∀ s ∈ steps, s.backfillOnlyFor juid) →
      NoBindingFor juid (runSteps cfg st steps) := by
  intro steps
  induction steps with
  | nil => intro st _ h _; exact h
  | cons s rest ih =>
    intro st hnodup h hbf
    show NoBindingFor juid (runSteps cfg (runStep cfg st s) rest)
    apply ih
    · unfold UidsNodup
      rw [uids_of_uidJob _ _ (uidJob_runStep cfg st s)]
      exact hnodup
    · exact NB_runStep cfg st s juid hnodup (hbf s (List.mem_cons_self s rest)) h
    · exact fun s' hs' => hbf s' (List.mem_cons_of_mem s hs')

/-- C3: over any cycle whose Allocate calls for the given job are all
backfill placements (its placed tasks only ever reach AllocatedOverBackfill),
no task of that job ever reaches Binding; and a backfill Allocate that finds
the owning job ready records the job in the backfill-ready top-dog set
instead of dispatching it. -/
theorem backfill_deferral (cfg : SessionConfig) (st : SessionState)
    (steps : List Step) (juid : Nat)
    (hnodup : UidsNodup st) (hnb : NoBindingFor juid st)
    (hbf : ∀ s ∈ steps, s.backfillOnlyFor juid) :
    NoBindingFor juid (runSteps cfg st steps) ∧
      (∀ (st1 : SessionState) (task : TaskInfo) (hostname : String) (job : JobInfo),
        task.job = juid →
        st1.lookupJob task.job = some job →
        cfg.cache.allocateVolumes task.uid hostname = none →
        JobReady cfg.jobReadyFns (some job)
          (allocatePre cfg st1 task hostname true).tasks = true →
        job.uid ∈ (Allocate cfg st1 task hostname true).2.topDogReadyJobs) := by
  constructor
  · exact NB_runSteps cfg juid steps st hnodup hnb hbf
  · intro st1 task hostname job _ hlook hvol hready
    unfold Allocate
    rw [hvol]
    dsimp only
    have hshape := allocatePre_shape cfg st1 task hostname true
    have hlook4 : (allocatePre cfg st1 task hostname true).lookupJob task.job =
        some job := by
      rw [lookupJob_congr st1 _ hshape.2.1 hshape.2.2.1]
      exact hlook
    rw [hlook4]
    dsimp only
    rw [hready]
    simp only [Bool.not_true, Bool.and_false, Bool.false_eq_true, if_false, if_true]
    by_cases hc : (allocatePre cfg st1 task hostname true).topDogReadyJobs.contains
        job.uid = true
    · rw [if_pos hc]
      exact List.elem_iff.mp hc
    · rw [if_neg hc]
      exact List.mem_append.mpr (Or.inr (List.mem_singleton.mpr rfl))

/-- Witness for C3: one backfill placement of task 9 makes job 5 ready; the
task never reaches Binding and job 5 lands in the top-dog set. -/
theorem backfill_deferral_witness :
    UidsNodup c3st ∧ NoBindingFor 5 c3st ∧
      NoBindingFor 5 (runSteps c3cfg c3st c3steps) ∧
      5 ∈ (Allocate c3cfg c3st (wTask 9 5) "n" true).2.topDogReadyJobs := by
  have hbf : ∀ s ∈ c3steps, s.backfillOnlyFor 5 := by
    intro s hs
    have hs' : s = Step.alloc (wTask 9 5) "n" true := by
      simpa [c3steps] using hs
    subst hs'
    intro _
    rfl
  have hnd : UidsNodup c3st := by unfold UidsNodup; decide
  have hn5 : NoBindingFor 5 c3st := by unfold NoBindingFor; decide
  have h := backfill_deferral c3cfg c3st c3steps 5 hnd hn5 hbf
  exact ⟨hnd, hn5, h.1,
    h.2 c3st (wTask 9 5) "n" { uid := 5, podGroup := some (freshPodGroup 1) }
      rfl rfl rfl rfl⟩

/-- The Allocated bucket has pairwise distinct UIDs when the store does. -/
theorem allocatedBucket_nodup (st : SessionState) (juid : Nat)
    (hnodup : UidsNodup st) : (allocatedBucket st juid).Nodup :=
  hnodup.sublist ((List.filter_sublist st.tasks).map TaskInfo.uid)

/-- For a store entry, membership of its UID in the Allocated bucket of a job
says exactly that the entry belongs to the job with status Allocated. -/
theorem mem_allocatedBucket (st : SessionState) (juid : Nat)
    (hnodup : UidsNodup st) (t : TaskInfo) (ht : t ∈ st.tasks) :
    t.uid ∈ allocatedBucket st juid ↔
      (t.job = juid ∧ t.status = TaskStatus.Allocated) := by
  constructor
  · intro h
    rcases List.mem_map.mp h with ⟨y, hyf, hyu⟩
    have hy := List.mem_filter.mp hyf
    have hty : t = y := eq_of_mem_uid_nodup _ hnodup t ht y hy.1 hyu.symm
    rcases Bool.and_eq_true_iff.mp hy.2 with ⟨h1, h2⟩
    rw [hty]
    exact ⟨by simpa using h1, by simpa using h2⟩
  · rintro ⟨h1, h2⟩
    exact List.mem_map.mpr ⟨t, List.mem_filter.mpr ⟨ht, by simp [h1, h2]⟩, rfl⟩

/-- Every UID of the Allocated bucket is carried by a store entry of the job
in status Allocated. -/
theorem allocatedBucket_spec (st : SessionState) (juid : Nat) :
    ∀ tid ∈ allocatedBucket st juid, ∃ t, t ∈ st.tasks ∧ t.uid = tid ∧
      t.job = juid ∧ t.status = TaskStatus.Allocated := by
  intro tid h
  rcases List.mem_map.mp h with ⟨y, hyf, hyu⟩
  have hy := List.mem_filter.mp hyf
  rcases Bool.and_eq_true_iff.mp hy.2 with ⟨h1, h2⟩
  exact ⟨y, hy.1, hyu, by simpa using h1, by simpa using h2⟩

/-- Looking up the UID of a member returns that member, in a store with
pairwise distinct UIDs. -/
theorem getTask_unique (st : SessionState) (hnodup : UidsNodup st) (t : TaskInfo)
    (ht : t ∈ st.tasks) : st.getTask t.uid = some t :=
  find?_eq_of_key_nodup TaskInfo.uid st.tasks t hnodup ht

/-- The readiness-triggered dispatch pass, characterised per task: a store
entry ends in Binding exactly when its UID is in the batch and both its cache
binds succeed; every other entry (a batch member with a failing bind
included) is untouched.  The outcome of each batch member thus depends only
on its own cache calls. -/
theorem dispatchAll_tasks_char (cfg : SessionConfig) (juid : Nat) :
    ∀ (batch : List Nat) (st : SessionState),
      UidsNodup st →
      (st.lookupJob juid).isSome = true →
      batch.Nodup →
      (∀ tid ∈ batch, ∃ t, t ∈ st.tasks ∧ t.uid = tid ∧ t.job = juid ∧
        t.status = TaskStatus.Allocated) →
      (dispatchAll cfg st batch).tasks = st.tasks.map (fun t =>
        if t.uid ∈ batch ∧ cfg.cache.bindVolumes t.uid = none ∧
            cfg.cache.bind t.uid t.nodeName = none
        then { t with status := TaskStatus.Binding } else t) := by
  intro batch
  induction batch with
  | nil =>
    intro st _ _ _ _
    show st.tasks = _
    rw [List.map_congr_left (fun t _ => by
      rw [if_neg]
      rintro ⟨h, _⟩
      cases h), List.map_id']
  | cons tid rest ih =>
    intro st hnodup hjob hbnd hmem
    rcases hmem tid (List.mem_cons_self tid rest) with ⟨t0, ht0mem, ht0uid, ht0job, ht0st⟩
    have hnr := List.nodup_cons.mp hbnd
    have hget : st.getTask tid = some t0 := by
      rw [← ht0uid]
      exact getTask_unique st hnodup t0 ht0mem
    have hmem' : ∀ tid' ∈ rest, ∃ t, t ∈ st.tasks ∧ t.uid = tid' ∧ t.job = juid ∧
        t.status = TaskStatus.Allocated :=
      fun tid' h' => hmem tid' (List.mem_cons_of_mem tid h')
    show (dispatchAll cfg (dispatch cfg st tid).2 rest).tasks = _
    unfold dispatch
    rw [hget]
    cases hbv : cfg.cache.bindVolumes tid with
    | some e =>
      dsimp only
      rw [ih st hnodup hjob hnr.2 hmem']
      apply List.map_congr_left
      intro a ha
      by_cases hau : a.uid = tid
      · have h1 : ¬(a.uid ∈ rest ∧ cfg.cache.bindVolumes a.uid = none ∧
            cfg.cache.bind a.uid a.nodeName = none) := by
          rintro ⟨hin, _, _⟩
          exact hnr.1 (hau ▸ hin)
        have h2 : ¬(a.uid ∈ tid :: rest ∧ cfg.cache.bindVolumes a.uid = none ∧
            cfg.cache.bind a.uid a.nodeName = none) := by
          rintro ⟨_, hv, _⟩
          rw [hau, hbv] at hv
          cases hv
        rw [if_neg h1, if_neg h2]
      · have hiff : a.uid ∈ rest ↔ a.uid ∈ tid :: rest := by
          constructor
          · exact List.mem_cons_of_mem tid
          · intro h
            rcases List.mem_cons.mp h with h | h
            · exact absurd h hau
            · exact h
        by_cases hcond : a.uid ∈ rest ∧ cfg.cache.bindVolumes a.uid = none ∧
            cfg.cache.bind a.uid a.nodeName = none
        · rw [if_pos hcond, if_pos ⟨hiff.mp hcond.1, hcond.2⟩]
        · rw [if_neg hcond, if_neg (fun h => hcond ⟨hiff.mpr h.1, h.2⟩)]
    | none =>
      dsimp only
      cases hb : cfg.cache.bind tid t0.nodeName with
      | some e =>
        dsimp only
        rw [ih st hnodup hjob hnr.2 hmem']
        apply List.map_congr_left
        intro a ha
        by_cases hau : a.uid = tid
        · have hae : a = t0 :=
            eq_of_mem_uid_nodup _ hnodup a ha t0 ht0mem (by rw [hau, ht0uid])
          have h1 : ¬(a.uid ∈ rest ∧ cfg.cache.bindVolumes a.uid = none ∧
              cfg.cache.bind a.uid a.nodeName = none) := by
            rintro ⟨hin, _, _⟩
            exact hnr.1 (hau ▸ hin)
          have h2 : ¬(a.uid ∈ tid :: rest ∧ cfg.cache.bindVolumes a.uid = none ∧
              cfg.cache.bind a.uid a.nodeName = none) := by
            rintro ⟨_, _, hv⟩
            rw [hae, ht0uid, hb] at hv
            cases hv
          rw [if_neg h1, if_neg h2]
        · have hiff : a.uid ∈ rest ↔ a.uid ∈ tid :: rest := by
            constructor
            · exact List.mem_cons_of_mem tid
            · intro h
              rcases List.mem_cons.mp h with h | h
              · exact absurd h hau
              · exact h
          by_cases hcond : a.uid ∈ rest ∧ cfg.cache.bindVolumes a.uid = none ∧
              cfg.cache.bind a.uid a.nodeName = none
          · rw [if_pos hcond, if_pos ⟨hiff.mp hcond.1, hcond.2⟩]
          · rw [if_neg hcond, if_neg (fun h => hcond ⟨hiff.mpr h.1, h.2⟩)]
      | none =>
        dsimp only
        rw [ht0job, hjob]
        rw [if_pos rfl]
        dsimp only
        have hnodup' : UidsNodup { st with tasks := (updateTaskFields st.tasks tid
            (fun t => { t with status := TaskStatus.Binding })) } := by
          unfold UidsNodup
          rw [uids_of_uidJob _ st.tasks (uidJob_updateTaskFields st.tasks tid
            (fun t => { t with status := TaskStatus.Binding }) (fun _ => ⟨rfl, rfl⟩))]
          exact hnodup
        rw [ih _ hnodup' hjob hnr.2 ?hmem2]
        case hmem2 =>
          intro tid' h'
          rcases hmem' tid' h' with ⟨t, htm, htu, htj, hts⟩
          have htne : (t.uid == tid) = false := by
            rw [beq_eq_false_iff_ne, htu]
            intro hc
            exact hnr.1 (hc ▸ h')
          refine ⟨t, ?_, htu, htj, hts⟩
          show t ∈ updateTaskFields st.tasks tid _
          exact List.mem_map.mpr ⟨t, htm, by rw [htne]; rfl⟩
        show (updateTaskFields st.tasks tid _).map _ = _
        unfold updateTaskFields
        rw [List.map_map]
        apply List.map_congr_left
        intro a ha
        by_cases hau : a.uid = tid
        · have hae : a = t0 :=
            eq_of_mem_uid_nodup _ hnodup a ha t0 ht0mem (by rw [hau, ht0uid])
          simp [Function.comp_apply, hae, ht0uid, hbv, hb, hnr.1]
        · have hbeq : (a.uid == tid) = false := by simpa using hau
          simp [Function.comp_apply, hbeq, hau]

/-- C6: a non-backfill Allocate that finds the owning job gang-ready runs one
dispatch pass over the Allocated bucket of the job; within the pass each
batch task is settled independently: it becomes Binding exactly when its
BindVolumes and Bind calls both succeed, a task with a failing bind keeps
status Allocated, and every task outside the batch is untouched. -/
theorem nonbackfill_ready_dispatch (cfg : SessionConfig) (st : SessionState)
    (task : TaskInfo) (hostname : String) (job : JobInfo)
    (hvol : cfg.cache.allocateVolumes task.uid hostname = none)
    (hlook : st.lookupJob task.job = some job)
    (hready : JobReady cfg.jobReadyFns (some job)
      (allocatePre cfg st task hostname false).tasks = true) :
    Allocate cfg st task hostname false =
      (AllocResult.ok, dispatchAll cfg (allocatePre cfg st task hostname false)
        (allocatedBucket (allocatePre cfg st task hostname false) job.uid)) ∧
    (∀ st2 : SessionState, UidsNodup st2 → (st2.lookupJob job.uid).isSome = true →
      (dispatchAll cfg st2 (allocatedBucket st2 job.uid)).tasks =
        st2.tasks.map (fun t =>
          if (t.job = job.uid ∧ t.status = TaskStatus.Allocated) ∧
              cfg.cache.bindVolumes t.uid = none ∧
              cfg.cache.bind t.uid t.nodeName = none
          then { t with status := TaskStatus.Binding } else t)) := by
  constructor
  · unfold Allocate
    rw [hvol]
    dsimp only
    have hshape := allocatePre_shape cfg st task hostname false
    have hlook4 : (allocatePre cfg st task hostname false).lookupJob task.job =
        some job := by
      rw [lookupJob_congr st _ hshape.2.1 hshape.2.2.1]
      exact hlook
    rw [hlook4]
    dsimp only
    rw [hready]
    simp
  · intro st2 hnodup2 hjob2
    rw [dispatchAll_tasks_char cfg job.uid (allocatedBucket st2 job.uid) st2 hnodup2
      hjob2 (allocatedBucket_nodup st2 job.uid hnodup2) (allocatedBucket_spec st2 job.uid)]
    apply List.map_congr_left
    intro a ha
    simp only [mem_allocatedBucket st2 job.uid hnodup2 a ha]

/-- Witness for C6 at a concrete two-task job: one dispatch pass runs; the
task whose binds succeed reaches Binding while the task whose BindVolumes
fails stays Allocated, untouched otherwise. -/
theorem nonbackfill_ready_dispatch_witness :
    c6cfg.cache.allocateVolumes (wTask 1 1).uid "n" = none ∧
      c6st.lookupJob (wTask 1 1).job =
        some { uid := 1, podGroup := some (freshPodGroup 0) } ∧
      Allocate c6cfg c6st (wTask 1 1) "n" false =
        (AllocResult.ok, dispatchAll c6cfg (allocatePre c6cfg c6st (wTask 1 1) "n" false)
          (allocatedBucket (allocatePre c6cfg c6st (wTask 1 1) "n" false) 1)) ∧
      (dispatchAll c6cfg c6stA (allocatedBucket c6stA 1)).tasks =
        [{ wTask 1 1 with status := TaskStatus.Binding, nodeName := "n" }, c6t2] := by
  have h := nonbackfill_ready_dispatch c6cfg c6st (wTask 1 1) "n"
    { uid := 1, podGroup := some (freshPodGroup 0) } rfl rfl rfl
  refine ⟨rfl, rfl, h.1, ?_⟩
  rw [h.2 c6stA (by unfold UidsNodup; decide) (by decide)]
  decide

/-- C10 as stated is false at this input: volume reservation succeeds, the
job of the task is missing from the session index, no readiness function is
registered (so readiness of the nil job defaults to pass), and session.go
line 300 then dereferences the nil job pointer instead of returning nil. -/
theorem allocate_missing_job_panics :
    c10cfg.cache.allocateVolumes (wTask 1 42).uid "n" = none ∧
      (emptySession "s").lookupJob (wTask 1 42).job = none ∧
      (Allocate c10cfg (emptySession "s") (wTask 1 42) "n" false).1 =
        AllocResult.panicked :=
  ⟨rfl, rfl, rfl⟩

/-- C10 amended: the error Allocate returns is exactly the AllocateVolumes
error; once reservation succeeds, Allocate returns nil whenever the owning
job is found in the index — node-missing, status-update, attach and dispatch
bind failures are all logged and invisible in the return value — and also
when the job is missing but the combined readiness check rejects the nil job;
a missing job whose readiness passes crashes instead of returning. -/
theorem allocate_error_iff_volumes (cfg : SessionConfig) (st : SessionState)
    (task : TaskInfo) (hostname : String) (b : Bool) :
    (∀ e, cfg.cache.allocateVolumes task.uid hostname = some e →
      Allocate cfg st task hostname b = (AllocResult.err e, st)) ∧
    (cfg.cache.allocateVolumes task.uid hostname = none →
      (st.lookupJob task.job).isSome = true →
      (Allocate cfg st task hostname b).1 = AllocResult.ok) ∧
    (cfg.cache.allocateVolumes task.uid hostname = none →
      st.lookupJob task.job = none →
      JobReady cfg.jobReadyFns none (allocatePre cfg st task hostname b).tasks = false →
      (Allocate cfg st task hostname b).1 = AllocResult.ok) := by
  have hshape := allocatePre_shape cfg st task hostname b
  refine ⟨?_, ?_, ?_⟩
  · intro e h
    unfold Allocate
    rw [h]
  · intro hv hjob
    unfold Allocate
    rw [hv]
    dsimp only
    have hj0 : ((allocatePre cfg st task hostname b).lookupJob task.job).isSome = true := by
      rw [lookupJob_congr st _ hshape.2.1 hshape.2.2.1]
      exact hjob
    rcases Option.isSome_iff_exists.mp hj0 with ⟨job, hj⟩
    rw [hj]
    dsimp only
    split_ifs <;> rfl
  · intro hv hjob hready
    unfold Allocate
    rw [hv]
    dsimp only
    have hj : (allocatePre cfg st task hostname b).lookupJob task.job = none := by
      rw [lookupJob_congr st _ hshape.2.1 hshape.2.2.1]
      exact hjob
    rw [hj]
    dsimp only
    rw [hready]
    rfl

/-- Witness for the amended C10, applied at three concrete inputs covering
the three cases: a failing reservation returns that error; a successful
reservation with the job indexed returns nil; a successful reservation with
the job missing and a rejecting readiness validator returns nil. -/
theorem allocate_error_iff_volumes_witness :
    Allocate c5cfg (emptySession "s") (wTask 1 1) "n" false =
        (AllocResult.err "boom", emptySession "s") ∧
      (Allocate c10cfg c3st (wTask 9 5) "n" false).1 = AllocResult.ok ∧
      (Allocate { c10cfg with jobReadyFns := [fun _ _ => false] } (emptySession "s")
        (wTask 1 42) "n" false).1 = AllocResult.ok :=
  ⟨(allocate_error_iff_volumes c5cfg (emptySession "s") (wTask 1 1) "n" false).1
      "boom" rfl,
    (allocate_error_iff_volumes c10cfg c3st (wTask 9 5) "n" false).2.1 rfl rfl,
    (allocate_error_iff_volumes { c10cfg with jobReadyFns := [fun _ _ => false] }
      (emptySession "s") (wTask 1 42) "n" false).2.2 rfl rfl rfl⟩

end KubeBatch
